import Mathlib

/-!
Shallow embedding of the form parser in src/parser/src/lib.rs of the
clojure-type-analyzer repository, together with theorems settling the
frozen claims about it.

The parser combinator framework (token_combinator crate), the lexer's
token classifiers, the Located wrapper (location crate) and the AST type
(parser/src/ast.rs) are not present under src/; they are modelled from the
spec (sections 3, 4.1, 4.2).  The grammar productions, the located
range-attaching wrapper, parse_form and parse_root are translated directly
from src/parser/src/lib.rs.

Rust panics (slice index out of bounds on tokens[0], unreachable!()) are
modelled by a distinguished outcome PR.panic; structured failures by
PR.fail.  Rust strings are modelled as lists of characters, so that
str::split can be embedded as a plain recursive function.
-/

namespace Clj

/-- Modelled from the spec: a source range is an opaque pair of comparable
offsets (start, end) (spec section 3, the location crate is not under src/). -/
abbrev SrcRange : Type := Nat × Nat

/-- Modelled from the spec: the Located wrapper pairing a value with the
source range it was parsed from (spec section 3). -/
structure Located (α : Type) where
  range : SrcRange
  value : α
deriving DecidableEq

/-- Modelled from the spec: the classified lexical units produced by the
lexer (spec sections 3 and 4.2).  One constructor per punctuation marker
(including the comment-out marker written sharp-underscore), plus the
payload-carrying categories.  Text payloads are lists of characters; the
float payload is opaque to every claim and is modelled as a Nat. -/
inductive Token where
  | LParen | RParen | LBracket | RBracket | LBrace | RBrace
  | Sharp | Hat | At | Tilde | TildeAt | Amp | Quote | Backquote
  | SharpUnderscore
  | Symbol (text : List Char)
  | Keyword (text : List Char)
  | StringLit (text : List Char)
  | CharLit (c : Char)
  | IntegerLit (i : Int)
  | FloatLit (f : Nat)
deriving DecidableEq

/-- A positioned token, the element type of the parser's input slice. -/
abbrev LTok : Type := Located Token

/-- Modelled from the spec: the failure-kind descriptors of the
token_combinator crate (spec sections 4.1 and 7): stream exhaustion,
classifier mismatch, and the structural Other kind used by parse_map
(src/parser/src/lib.rs line 150 names TokenParseErrorKind::Other). -/
inductive TokenParseErrorKind where
  | NotEnoughToken
  | Expects (expected : String)
  | Other (msg : String)
deriving DecidableEq

/-- Modelled from the spec: a structured error carrying a non-empty ordered
list of failure kinds and a count of tokens consumed before the failure
point (spec section 4.1; field names follow src/parser/src/lib.rs lines
149-153). -/
structure TokenParseError where
  errors : List TokenParseErrorKind
  tokens_consumed : Nat
deriving DecidableEq

/-- Outcome of running a parser on a token slice: success with the
remaining slice, a structured failure, or a Rust panic (index out of
bounds or unreachable!()). -/
inductive PR (α : Type) where
  | ok (rest : List LTok) (val : α)
  | fail (e : TokenParseError)
  | panic
deriving DecidableEq

/-- A parser consumes a prefix of a token slice and produces either the
remaining slice with an output, or a structured failure (spec section 4.1),
or panics. -/
abbrev Parser (α : Type) : Type := List LTok → PR α

/-- Modelled from the spec: a one-token classifier for an exact punctuation
token; consumes exactly one token on success, fails without consuming on
mismatch or on an exhausted stream (spec section 4.2). -/
def tokenTag (expected : String) (tk : Token) : Parser Unit := fun ts =>
  match ts with
  | [] => PR.fail { errors := [TokenParseErrorKind.NotEnoughToken], tokens_consumed := 0 }
  | t :: rest =>
    if t.value = tk then PR.ok rest ()
    else PR.fail { errors := [TokenParseErrorKind.Expects expected], tokens_consumed := 0 }

def l_paren : Parser Unit := tokenTag "l_paren" Token.LParen
def r_paren : Parser Unit := tokenTag "r_paren" Token.RParen
def l_bracket : Parser Unit := tokenTag "l_bracket" Token.LBracket
def r_bracket : Parser Unit := tokenTag "r_bracket" Token.RBracket
def l_brace : Parser Unit := tokenTag "l_brace" Token.LBrace
def r_brace : Parser Unit := tokenTag "r_brace" Token.RBrace
def sharp : Parser Unit := tokenTag "sharp" Token.Sharp
def hat : Parser Unit := tokenTag "hat" Token.Hat
def at_mark : Parser Unit := tokenTag "at" Token.At
def tilde : Parser Unit := tokenTag "tilde" Token.Tilde
def tilde_at : Parser Unit := tokenTag "tilde_at" Token.TildeAt
def and : Parser Unit := tokenTag "and" Token.Amp
def quote : Parser Unit := tokenTag "quote" Token.Quote
def backquote : Parser Unit := tokenTag "backquote" Token.Backquote
def sharp_underescore : Parser Unit := tokenTag "sharp_underescore" Token.SharpUnderscore

/-- Modelled from the spec: the symbol-text extractor classifier
(spec section 4.2). -/
def symbol : Parser (List Char) := fun ts =>
  match ts with
  | [] => PR.fail { errors := [TokenParseErrorKind.NotEnoughToken], tokens_consumed := 0 }
  | t :: rest =>
    match t.value with
    | Token.Symbol s => PR.ok rest s
    | _ => PR.fail { errors := [TokenParseErrorKind.Expects "symbol"], tokens_consumed := 0 }

/-- Modelled from the spec: the keyword-text extractor classifier. -/
def keyword : Parser (List Char) := fun ts =>
  match ts with
  | [] => PR.fail { errors := [TokenParseErrorKind.NotEnoughToken], tokens_consumed := 0 }
  | t :: rest =>
    match t.value with
    | Token.Keyword s => PR.ok rest s
    | _ => PR.fail { errors := [TokenParseErrorKind.Expects "keyword"], tokens_consumed := 0 }

/-- Modelled from the spec: the string-contents extractor classifier. -/
def string_literal : Parser (List Char) := fun ts =>
  match ts with
  | [] => PR.fail { errors := [TokenParseErrorKind.NotEnoughToken], tokens_consumed := 0 }
  | t :: rest =>
    match t.value with
    | Token.StringLit s => PR.ok rest s
    | _ => PR.fail { errors := [TokenParseErrorKind.Expects "string_literal"], tokens_consumed := 0 }

/-- Modelled from the spec: the char-value extractor classifier. -/
def char_literal : Parser Char := fun ts =>
  match ts with
  | [] => PR.fail { errors := [TokenParseErrorKind.NotEnoughToken], tokens_consumed := 0 }
  | t :: rest =>
    match t.value with
    | Token.CharLit c => PR.ok rest c
    | _ => PR.fail { errors := [TokenParseErrorKind.Expects "char_literal"], tokens_consumed := 0 }

/-- Modelled from the spec: the integer-value extractor classifier. -/
def integer_literal : Parser Int := fun ts =>
  match ts with
  | [] => PR.fail { errors := [TokenParseErrorKind.NotEnoughToken], tokens_consumed := 0 }
  | t :: rest =>
    match t.value with
    | Token.IntegerLit i => PR.ok rest i
    | _ => PR.fail { errors := [TokenParseErrorKind.Expects "integer_literal"], tokens_consumed := 0 }

/-- Modelled from the spec: the float-value extractor classifier. -/
def float_literal : Parser Nat := fun ts =>
  match ts with
  | [] => PR.fail { errors := [TokenParseErrorKind.NotEnoughToken], tokens_consumed := 0 }
  | t :: rest =>
    match t.value with
    | Token.FloatLit f => PR.ok rest f
    | _ => PR.fail { errors := [TokenParseErrorKind.Expects "float_literal"], tokens_consumed := 0 }

/-- Modelled from the spec: map transforms a successful output through a
pure function; failure passes through unchanged (spec section 4.1). -/
def map (p : Parser α) (f : α → β) : Parser β := fun ts =>
  match p ts with
  | PR.ok rest v => PR.ok rest (f v)
  | PR.fail e => PR.fail e
  | PR.panic => PR.panic

/-- Modelled from the spec: map with a closure that can itself panic (the
source passes closures containing unreachable!() to map); none models the
panic. -/
def mapPanic (p : Parser α) (f : α → Option β) : Parser β := fun ts =>
  match p ts with
  | PR.ok rest v =>
    match f v with
    | some b => PR.ok rest b
    | none => PR.panic
  | PR.fail e => PR.fail e
  | PR.panic => PR.panic

/-- Modelled from the spec: map_res passes the whole result of the inner
parser to a fallible function (spec section 4.1; used by parse_map). -/
def map_res (p : Parser α)
    (f : Except TokenParseError (List LTok × α) → Except TokenParseError (List LTok × β)) :
    Parser β := fun ts =>
  match p ts with
  | PR.ok rest v =>
    match f (Except.ok (rest, v)) with
    | Except.ok (r2, b) => PR.ok r2 b
    | Except.error e => PR.fail e
  | PR.fail e =>
    match f (Except.error e) with
    | Except.ok (r2, b) => PR.ok r2 b
    | Except.error e2 => PR.fail e2
  | PR.panic => PR.panic

/-- Modelled from the spec: preceded runs two parsers in sequence and keeps
only the second output (spec section 4.1). -/
def preceded (p : Parser α) (q : Parser β) : Parser β := fun ts =>
  match p ts with
  | PR.ok r1 _ =>
    match q r1 with
    | PR.ok r2 b => PR.ok r2 b
    | PR.fail e => PR.fail e
    | PR.panic => PR.panic
  | PR.fail e => PR.fail e
  | PR.panic => PR.panic

/-- Modelled from the spec: delimited runs three parsers in sequence and
keeps only the middle output (spec section 4.1). -/
def delimited (po : Parser α) (pb : Parser β) (pc : Parser γ) : Parser β := fun ts =>
  match po ts with
  | PR.ok r1 _ =>
    match pb r1 with
    | PR.ok r2 b =>
      match pc r2 with
      | PR.ok r3 _ => PR.ok r3 b
      | PR.fail e => PR.fail e
      | PR.panic => PR.panic
    | PR.fail e => PR.fail e
    | PR.panic => PR.panic
  | PR.fail e => PR.fail e
  | PR.panic => PR.panic

/-- Modelled from the spec: a two-parser tuple, failing fast on the first
failure (spec section 4.1; parse_set uses a two-element tuple). -/
def tuple2 (p : Parser α) (q : Parser β) : Parser (α × β) := fun ts =>
  match p ts with
  | PR.ok r1 a =>
    match q r1 with
    | PR.ok r2 b => PR.ok r2 (a, b)
    | PR.fail e => PR.fail e
    | PR.panic => PR.panic
  | PR.fail e => PR.fail e
  | PR.panic => PR.panic

/-- Modelled from the spec: alt tries each alternative in order at the same
position, returns the first success, and on total failure aggregates the
branch errors, preferring the branch that consumed the most tokens for the
count (spec section 4.1). -/
def alt (ps : List (Parser α)) : Parser α := fun ts =>
  match ps with
  | [] => PR.fail { errors := [], tokens_consumed := 0 }
  | [p] => p ts
  | p :: rest =>
    match p ts with
    | PR.ok r v => PR.ok r v
    | PR.panic => PR.panic
    | PR.fail e =>
      match alt rest ts with
      | PR.ok r v => PR.ok r v
      | PR.panic => PR.panic
      | PR.fail e2 =>
        PR.fail { errors := e.errors ++ e2.errors,
                  tokens_consumed := max e.tokens_consumed e2.tokens_consumed }

/-- Fuel-indexed body of many0; the fuel only bounds the number of
repetitions and is irrelevant whenever the repeated parser consumes at
least one token per success. -/
def many0Aux (p : Parser α) : Nat → List LTok → PR (List α)
  | 0, _ => PR.panic
  | fuel + 1, ts =>
    match p ts with
    | PR.fail _ => PR.ok ts []
    | PR.panic => PR.panic
    | PR.ok rest v =>
      match many0Aux p fuel rest with
      | PR.ok r2 vs => PR.ok r2 (v :: vs)
      | PR.fail e => PR.fail e
      | PR.panic => PR.panic

/-- Modelled from the spec: many0 repeats a parser until it fails,
collecting outputs; zero repetitions succeed with an empty sequence and
many0 never fails itself (spec section 4.1). -/
def many0 (p : Parser α) : Parser (List α) := fun ts => many0Aux p (ts.length + 1) ts

/-- Fuel-indexed body of many0_count. -/
def many0_countAux (p : Parser α) : Nat → List LTok → PR Nat
  | 0, _ => PR.panic
  | fuel + 1, ts =>
    match p ts with
    | PR.fail _ => PR.ok ts 0
    | PR.panic => PR.panic
    | PR.ok rest _ =>
      match many0_countAux p fuel rest with
      | PR.ok r2 n => PR.ok r2 (n + 1)
      | PR.fail e => PR.fail e
      | PR.panic => PR.panic

/-- Modelled from the spec: many0_count is many0 returning only the
repetition count (spec section 4.1). -/
def many0_count (p : Parser α) : Parser Nat := fun ts => many0_countAux p (ts.length + 1) ts

/-- Modelled from the spec: the AST sum type of parser/src/ast.rs, with the
variants and payload shapes of the table in spec section 3.  Boxed child
nodes become plain nested values. -/
inductive AST where
  | Symbol (ns : Option (List Char)) (name : List Char)
  | Keyword (ns : Option (List Char)) (name : List Char)
  | CharLiteral (c : Char)
  | StringLiteral (s : List Char)
  | IntegerLiteral (i : Int)
  | FloatLiteral (f : Nat)
  | List (forms : List (Located AST))
  | Vector (forms : List (Located AST))
  | Map (kvs : List (Located AST))
  | Set (forms : List (Located AST))
  | RegexLiteral (s : List Char)
  | AnonymousFn (lists : List (Located AST))
  | Metadata (form : Located AST)
  | And
  | AtomDeref (ns : Option (List Char)) (name : List Char)
  | Quoted (form : Located AST)
  | SyntaxQuoted (form : Located AST)
  | Unquoted (ns : Option (List Char)) (name : List Char)
  | UnquotedSplicing (ns : Option (List Char)) (name : List Char)
  | Root (forms : List (Located AST))

/-- Embeds located (src/parser/src/lib.rs lines 18-34).  The Rust code
reads tokens[0].range before running the wrapped parser, which panics on an
empty slice; after success the end of the produced range is the range end
of the first remaining token, or of the last token of the input slice when
nothing remains (rest.get(0).unwrap_or(tokens.last().unwrap())). -/
def located (parser : Parser AST) : Parser (Located AST) := fun tokens =>
  match tokens with
  | [] => PR.panic
  | t0 :: ts =>
    match parser (t0 :: ts) with
    | PR.ok rest output =>
      PR.ok rest
        { range := (t0.range.1,
            (match rest.head? with
             | some t => t.range
             | none => (ts.getLastD t0).range).2),
          value := output }
    | PR.fail e => PR.fail e
    | PR.panic => PR.panic

/-- Embeds str::split on the slash character: Rust "s.split('/')" yields
the (never empty) list of chunks between slashes. -/
def splitSlash : List Char → List (List Char)
  | [] => [[]]
  | c :: rest =>
    if c = '/' then [] :: splitSlash rest
    else
      match splitSlash rest with
      | [] => [[c]]
      | p :: ps => (c :: p) :: ps

/-- The closure of parse_symbol (src/parser/src/lib.rs lines 43-55): split
the raw text once on the slash; one chunk gives an unqualified symbol, two
give a namespaced one, anything else is unreachable!() (modelled as none,
a panic). -/
def symbolFromStr (s : List Char) : Option AST :=
  match splitSlash s with
  | [nm] => some (AST.Symbol none nm)
  | [ns, nm] => some (AST.Symbol (some ns) nm)
  | _ => none

/-- Embeds parse_symbol (src/parser/src/lib.rs lines 42-56). -/
def parse_symbol : Parser (Located AST) := located (mapPanic symbol symbolFromStr)

/-- Embeds the keyword prefix stripping of parse_keyword (src/parser/src/
lib.rs lines 94-98): strip a leading double colon (two characters) or else
a leading single character; taking a byte-slice of an empty string is a
panic (none). -/
def stripKw (s : List Char) : Option (List Char) :=
  if s.take 2 = [':', ':'] then some (s.drop 2)
  else if 1 ≤ s.length then some (s.drop 1)
  else none

/-- The closure of parse_keyword (src/parser/src/lib.rs lines 93-110):
strip the colon prefix, then the same slash split as for symbols. -/
def keywordFromStr (s : List Char) : Option AST :=
  match stripKw s with
  | none => none
  | some nm =>
    match splitSlash nm with
    | [n1] => some (AST.Keyword none n1)
    | [ns, n1] => some (AST.Keyword (some ns) n1)
    | _ => none

/-- Embeds parse_keyword (src/parser/src/lib.rs lines 92-111). -/
def parse_keyword : Parser (Located AST) := located (mapPanic keyword keywordFromStr)

/-- The closure of parse_atom_deref: re-tag a parsed symbol, any other
variant being unreachable!(). -/
def symbolToDeref (sym_ast : Located AST) : Option AST :=
  match sym_ast.value with
  | AST.Symbol ns nm => some (AST.AtomDeref ns nm)
  | _ => none

/-- Embeds parse_atom_deref (src/parser/src/lib.rs lines 58-66). -/
def parse_atom_deref : Parser (Located AST) :=
  located (mapPanic (preceded at_mark parse_symbol) symbolToDeref)

/-- The closure of parse_unquoted_symbol. -/
def symbolToUnquoted (sym_ast : Located AST) : Option AST :=
  match sym_ast.value with
  | AST.Symbol ns nm => some (AST.Unquoted ns nm)
  | _ => none

/-- Embeds parse_unquoted_symbol (src/parser/src/lib.rs lines 68-76). -/
def parse_unquoted_symbol : Parser (Located AST) :=
  located (mapPanic (preceded tilde parse_symbol) symbolToUnquoted)

/-- The closure of parse_unquoted_splicing_symbol. -/
def symbolToUnquotedSplicing (sym_ast : Located AST) : Option AST :=
  match sym_ast.value with
  | AST.Symbol ns nm => some (AST.UnquotedSplicing ns nm)
  | _ => none

/-- Embeds parse_unquoted_splicing_symbol (src/parser/src/lib.rs lines
78-86). -/
def parse_unquoted_splicing_symbol : Parser (Located AST) :=
  located (mapPanic (preceded tilde_at parse_symbol) symbolToUnquotedSplicing)

/-- Embeds parse_and (src/parser/src/lib.rs lines 88-90). -/
def parse_and : Parser (Located AST) := located (map and (fun _ => AST.And))

/-- Embeds parse_char_literal (src/parser/src/lib.rs lines 113-115). -/
def parse_char_literal : Parser (Located AST) :=
  located (map char_literal (fun c => AST.CharLiteral c))

/-- Embeds parse_string_literal (src/parser/src/lib.rs lines 117-119). -/
def parse_string_literal : Parser (Located AST) :=
  located (map string_literal (fun s => AST.StringLiteral s))

/-- Embeds parse_integer_literal (src/parser/src/lib.rs lines 121-123). -/
def parse_integer_literal : Parser (Located AST) :=
  located (map integer_literal (fun i => AST.IntegerLiteral i))

/-- Embeds parse_float_literal (src/parser/src/lib.rs lines 125-127). -/
def parse_float_literal : Parser (Located AST) :=
  located (map float_literal (fun f => AST.FloatLiteral f))

/-- Embeds parse_list (src/parser/src/lib.rs lines 129-134), parameterized
by the recursive form parser. -/
def parse_listP (pf : Parser (Located AST)) : Parser (Located AST) :=
  located (map (delimited l_paren (many0 pf) r_paren) (fun forms => AST.List forms))

/-- Embeds parse_vector (src/parser/src/lib.rs lines 136-141). -/
def parse_vectorP (pf : Parser (Located AST)) : Parser (Located AST) :=
  located (map (delimited l_bracket (many0 pf) r_bracket) (fun forms => AST.Vector forms))

/-- The closure passed to map_res by parse_map (src/parser/src/lib.rs lines
146-159): an odd number of body forms becomes the structural Other error,
whose tokens_consumed field is set to kvs.len(), the number of body forms. -/
def mapResFn (res : Except TokenParseError (List LTok × List (Located AST))) :
    Except TokenParseError (List LTok × AST) :=
  match res with
  | Except.ok (rest, kvs) =>
    if kvs.length % 2 ≠ 0 then
      Except.error { errors := [TokenParseErrorKind.Other "map must have even number of forms"],
                     tokens_consumed := kvs.length }
    else Except.ok (rest, AST.Map kvs)
  | Except.error err => Except.error err

/-- Embeds parse_map (src/parser/src/lib.rs lines 143-161), parameterized
by the recursive form parser. -/
def parse_mapP (pf : Parser (Located AST)) : Parser (Located AST) :=
  located (map_res (delimited l_brace (many0 pf) r_brace) mapResFn)

/-- Embeds parse_set (src/parser/src/lib.rs lines 163-168). -/
def parse_setP (pf : Parser (Located AST)) : Parser (Located AST) :=
  located (map (tuple2 sharp (delimited l_brace (many0 pf) r_brace))
    (fun x => AST.Set x.2))

/-- Embeds parse_regex_literal (src/parser/src/lib.rs lines 170-174). -/
def parse_regex_literal : Parser (Located AST) :=
  located (map (preceded sharp string_literal) (fun s => AST.RegexLiteral s))

/-- Embeds parse_anonymous_fn (src/parser/src/lib.rs lines 176-180): a
sharp token followed by zero or more parenthesized lists, parameterized by
the list parser. -/
def parse_anonymous_fnP (pl : Parser (Located AST)) : Parser (Located AST) :=
  located (map (preceded sharp (many0 pl)) (fun lists => AST.AnonymousFn lists))

/-- Embeds parse_metadata (src/parser/src/lib.rs lines 36-40). -/
def parse_metadataP (pf : Parser (Located AST)) : Parser (Located AST) :=
  located (map (preceded hat pf) (fun form => AST.Metadata form))

/-- Embeds parse_quoted_form (src/parser/src/lib.rs lines 182-186). -/
def parse_quoted_formP (pf : Parser (Located AST)) : Parser (Located AST) :=
  located (map (preceded quote pf) (fun form => AST.Quoted form))

/-- Embeds parse_syntax_quoted_form (src/parser/src/lib.rs lines 188-192);
the production name is shortened here, the grammar is unchanged. -/
def parse_sq_formP (pf : Parser (Located AST)) : Parser (Located AST) :=
  located (map (preceded backquote pf) (fun form => AST.SyntaxQuoted form))

/-- Embeds parse_form (src/parser/src/lib.rs lines 194-216) with explicit
fuel bounding the recursion depth; the alternatives appear in exactly the
source order.  Fuel is exhausted only beyond nesting depth equal to the
fuel, which parse_form below instantiates above the input length. -/
def parse_formF : Nat → Parser (Located AST)
  | 0 => fun _ => PR.panic
  | f + 1 => fun ts =>
    alt [parse_symbol, parse_keyword, parse_char_literal, parse_string_literal,
         parse_integer_literal, parse_float_literal,
         parse_listP (parse_formF f), parse_vectorP (parse_formF f),
         parse_mapP (parse_formF f), parse_setP (parse_formF f),
         parse_regex_literal,
         parse_anonymous_fnP (parse_listP (parse_formF f)),
         parse_metadataP (parse_formF f),
         parse_and, parse_atom_deref,
         parse_quoted_formP (parse_formF f),
         parse_unquoted_symbol, parse_unquoted_splicing_symbol,
         parse_sq_formP (parse_formF f)] ts

/-- The public parse_form: the fuel is one more than the slice length,
which exceeds any reachable nesting depth since every composite production
consumes at least one token before recursing. -/
def parse_form : Parser (Located AST) := fun ts => parse_formF (ts.length + 1) ts

/-- The public parse_map, whose body parser is parse_form as in the source. -/
def parse_map : Parser (Located AST) := parse_mapP parse_form

/-- The public parse_list. -/
def parse_list : Parser (Located AST) := parse_listP parse_form

/-- Embeds the comment-out discard loop of parse_root (src/parser/src/
lib.rs lines 224-229): for each counted marker, if the stream is non-empty
parse one form and drop it, propagating its failure. -/
def discardLoop : Nat → List LTok → PR Unit
  | 0, rest => PR.ok rest ()
  | n + 1, rest =>
    if rest.isEmpty then discardLoop n rest
    else
      match parse_form rest with
      | PR.ok rest2 _ => discardLoop n rest2
      | PR.fail e => PR.fail e
      | PR.panic => PR.panic

/-- Embeds the loop of parse_root (src/parser/src/lib.rs lines 218-235)
with fuel bounding the number of iterations; each completed iteration
consumes at least one token, so the fuel chosen by parse_root is never
exhausted on terminating runs. -/
def parse_rootAux : Nat → List LTok → List (Located AST) → PR AST
  | 0, _, _ => PR.panic
  | f + 1, rest, forms =>
    if rest.isEmpty then PR.ok rest (AST.Root forms)
    else
      match many0_count sharp_underescore rest with
      | PR.ok rest1 k =>
        match discardLoop k rest1 with
        | PR.ok rest2 _ =>
          match parse_form rest2 with
          | PR.ok rest3 form => parse_rootAux f rest3 (forms ++ [form])
          | PR.fail e => PR.fail e
          | PR.panic => PR.panic
        | PR.fail e => PR.fail e
        | PR.panic => PR.panic
      | PR.fail e => PR.fail e
      | PR.panic => PR.panic

/-- The public parse_root (src/parser/src/lib.rs lines 218-235). -/
def parse_root : Parser AST := fun tokens => parse_rootAux (tokens.length + 1) tokens []

/-- Follows the spec's words (sections 4.4 and 8): the discard phase of the
root driver, returning the remaining slice together with how many forms
were actually discarded by comment-out markers. -/
def discardSpec : Nat → List LTok → Option (List LTok × Nat)
  | 0, rest => some (rest, 0)
  | n + 1, rest =>
    if rest.isEmpty then discardSpec n rest
    else
      match parse_form rest with
      | PR.ok rest2 _ =>
        match discardSpec n rest2 with
        | some (r, d) => some (r, d + 1)
        | none => none
      | _ => none

/-- Follows the spec's words (section 8): walks the top-level form
sequence, returning the kept forms in input order, the total number of
top-level forms (kept plus discarded) and the number discarded by
comment-out markers. -/
def rootSpecAux : Nat → List LTok → Option (List (Located AST) × Nat × Nat)
  | 0, _ => none
  | f + 1, rest =>
    if rest.isEmpty then some ([], 0, 0)
    else
      match many0_count sharp_underescore rest with
      | PR.ok rest1 k =>
        match discardSpec k rest1 with
        | some (rest2, d) =>
          match parse_form rest2 with
          | PR.ok rest3 form =>
            match rootSpecAux f rest3 with
            | some (kept, t, dd) => some (form :: kept, t + d + 1, dd + d)
            | none => none
          | _ => none
        | none => none
      | _ => none

/-- Follows the spec's words (section 8): the top-level form count
bookkeeping matching parse_root's fuel. -/
def rootSpec (tokens : List LTok) : Option (List (Located AST) × Nat × Nat) :=
  rootSpecAux (tokens.length + 1) tokens

/-- The last element of a non-empty list, as produced by getLast?, is its
getLastD against the head. -/
theorem getLast?_cons_getLastD (t0 : α) (ts : List α) :
    (t0 :: ts).getLast? = some (ts.getLastD t0) := by
  cases ts <;> rfl

/-- C1 (amended): for every Located AST produced by the located wrapper,
and hence by every grammar production, the range start equals the range
start of the first token of the slice the production ran on, and the range
end equals the range end of the first remaining (unconsumed) token when one
remains, or the range end of the last consumed token when the production
consumed the whole slice.  The original tightness claim fails; see
parse_form_range_not_tight. -/
theorem located_range_next_token (p : Parser AST) (tokens rest : List LTok)
    (v : Located AST) (h : located p tokens = PR.ok rest v) :
    (∃ t0, tokens.head? = some t0 ∧ v.range.1 = t0.range.1) ∧
    (∀ t, rest.head? = some t → v.range.2 = t.range.2) ∧
    (rest.head? = none → ∃ tl, tokens.getLast? = some tl ∧ v.range.2 = tl.range.2) := by
  cases tokens with
  | nil => simp [located] at h
  | cons t0 ts =>
    cases hp : p (t0 :: ts) with
    | ok r out =>
      simp only [located, hp, PR.ok.injEq] at h
      obtain ⟨hrest, hv⟩ := h
      subst hrest
      subst hv
      refine ⟨⟨t0, rfl, rfl⟩, ?_, ?_⟩
      · intro t ht
        simp [ht]
      · intro hn
        refine ⟨ts.getLastD t0, getLast?_cons_getLastD t0 ts, ?_⟩
        simp [hn]
    | fail e => simp [located, hp] at h
    | panic => simp [located, hp] at h

/-- Input used by the witness of the located range characterization. -/
def exLocToks : List LTok := [⟨(0, 1), Token.Amp⟩, ⟨(2, 3), Token.Amp⟩]

/-- A one-token parser used by the witness of the located range
characterization. -/
def oneTokenAnd : Parser AST := fun ts =>
  match ts with
  | [] => PR.panic
  | _ :: rest => PR.ok rest AST.And

/-- Witness for C1 (amended): on a concrete two-token slice whose first
token a one-token parser consumes, the produced range runs from offset 0 to
offset 3, the end of the still unconsumed second token. -/
theorem located_range_next_token_witness :
    (∃ t0, exLocToks.head? = some t0 ∧
      (⟨(0, 3), AST.And⟩ : Located AST).range.1 = t0.range.1) ∧
    (∀ t, ([⟨(2, 3), Token.Amp⟩] : List LTok).head? = some t →
      (⟨(0, 3), AST.And⟩ : Located AST).range.2 = t.range.2) ∧
    (([⟨(2, 3), Token.Amp⟩] : List LTok).head? = none →
      ∃ tl, exLocToks.getLast? = some tl ∧
        (⟨(0, 3), AST.And⟩ : Located AST).range.2 = tl.range.2) :=
  located_range_next_token oneTokenAnd exLocToks [⟨(2, 3), Token.Amp⟩]
    ⟨(0, 3), AST.And⟩ (by rfl)

/-- Counterexample to C1 as stated: parsing the first of the two integer
tokens 1 at offsets (0,1) and 2 at offsets (2,3), the produced range is
(0,3): its end 3 is the range end of the next, unconsumed token, not the
range end 1 of the last consumed token, and the range overlaps the next
sibling's range (2,3) entirely. -/
theorem parse_form_range_not_tight :
    parse_form [⟨(0, 1), Token.IntegerLit 1⟩, ⟨(2, 3), Token.IntegerLit 2⟩] =
      PR.ok [⟨(2, 3), Token.IntegerLit 2⟩] ⟨(0, 3), AST.IntegerLiteral 1⟩ ∧
    (3 : Nat) ≠ 1 :=
  ⟨rfl, by decide⟩

/-- C2: the code does not tolerate a comment-out discard that exhausts the
stream.  A lone comment-out marker, and a marker followed by exactly one
form, both drive parse_root into parse_form on the empty slice, whose
located wrapper indexes tokens[0] and panics, instead of returning Ok with
the forms accumulated so far. -/
theorem parse_root_trailing_comment_out_panics :
    parse_root [⟨(0, 2), Token.SharpUnderscore⟩] = PR.panic ∧
    parse_root [⟨(0, 2), Token.SharpUnderscore⟩, ⟨(3, 4), Token.IntegerLit 1⟩] = PR.panic :=
  ⟨rfl, rfl⟩

/-- C3: on the empty token slice parse_form does not return a structured
stream-exhaustion failure: the located wrapper of its very first
alternative indexes tokens[0] and panics. -/
theorem parse_form_empty_slice_panics : parse_form ([] : List LTok) = PR.panic := rfl

/-- Token slice of the odd map literal written open-brace 1 2 3
close-brace. -/
def exOddMapToks : List LTok :=
  [⟨(0, 1), Token.LBrace⟩, ⟨(2, 3), Token.IntegerLit 1⟩, ⟨(4, 5), Token.IntegerLit 2⟩,
   ⟨(6, 7), Token.IntegerLit 3⟩, ⟨(8, 9), Token.RBrace⟩]

/-- C6: the structural error of parse_map on the odd map literal with body
1 2 3 carries tokens_consumed equal to 3, the number of parsed body forms,
although 5 tokens (the opening brace, the three body tokens and the closing
brace) were consumed before the failure point. -/
theorem parse_map_error_counts_forms_not_tokens :
    parse_map exOddMapToks =
      PR.fail { errors := [TokenParseErrorKind.Other "map must have even number of forms"],
                tokens_consumed := 3 } ∧
    exOddMapToks.length = 5 ∧ (3 : Nat) ≠ 5 :=
  ⟨rfl, rfl, by decide⟩

/-- C9: a sharp token followed by a non-list token yields AnonymousFn with
zero lists, but when the parenthesized lists following the sharp token
extend to the end of the input, parse_form panics instead of succeeding:
after consuming the last list, many0 probes parse_list on the empty
remainder and its located wrapper indexes tokens[0]. -/
theorem parse_form_anonymous_fn_at_eof_panics :
    parse_form [⟨(0, 1), Token.Sharp⟩, ⟨(2, 3), Token.Symbol ['x']⟩] =
      PR.ok [⟨(2, 3), Token.Symbol ['x']⟩] ⟨(0, 3), AST.AnonymousFn []⟩ ∧
    parse_form [⟨(0, 1), Token.Sharp⟩, ⟨(1, 2), Token.LParen⟩, ⟨(2, 3), Token.RParen⟩] =
      PR.panic :=
  ⟨rfl, rfl⟩

/-- Splitting a slash-free text yields the single chunk holding the whole
text. -/
theorem splitSlash_count_zero (s : List Char) (h : s.count '/' = 0) :
    splitSlash s = [s] := by
  induction s with
  | nil => rfl
  | cons c rest ih =>
    by_cases hc : c = '/'
    · subst hc; simp [List.count_cons] at h
    · have hr : rest.count '/' = 0 := by simpa [List.count_cons, hc] using h
      simp [splitSlash, hc, ih hr]

/-- Splitting a text holding exactly one slash yields the chunk before the
slash and the chunk after it. -/
theorem splitSlash_count_one (s : List Char) (h : s.count '/' = 1) :
    splitSlash s = [s.takeWhile (· != '/'), (s.dropWhile (· != '/')).tail] := by
  induction s with
  | nil => simp at h
  | cons c rest ih =>
    by_cases hc : c = '/'
    · subst hc
      have hr : rest.count '/' = 0 := by simpa [List.count_cons] using h
      simp [splitSlash, splitSlash_count_zero rest hr]
    · have hr : rest.count '/' = 1 := by simpa [List.count_cons, hc] using h
      simp [splitSlash, hc, ih hr]

/-- The symbol payload computed from a text with at most one slash: no
slash gives an unqualified name, one slash splits into namespace and name. -/
theorem symbolFromStr_of_count (s : List Char) (h : s.count '/' ≤ 1) :
    symbolFromStr s = some (if s.count '/' = 0 then AST.Symbol none s
      else AST.Symbol (some (s.takeWhile (· != '/'))) ((s.dropWhile (· != '/')).tail)) := by
  by_cases h0 : s.count '/' = 0
  · simp [symbolFromStr, splitSlash_count_zero s h0, h0]
  · have h1 : s.count '/' = 1 := by omega
    simp [symbolFromStr, splitSlash_count_one s h1, h0]

/-- C7: on a symbol token whose text holds at most one slash (the lexer's
contract), parse_symbol succeeds: with no slash it yields an unqualified
symbol carrying the whole text, with exactly one slash it yields the text
before the slash as the namespace and the text after it as the name, and
the unreachable branch is never taken. -/
theorem parse_symbol_namespace_split (s : List Char) (r : SrcRange)
    (h : s.count '/' ≤ 1) :
    parse_symbol [⟨r, Token.Symbol s⟩] =
      PR.ok [] ⟨r, if s.count '/' = 0 then AST.Symbol none s
        else AST.Symbol (some (s.takeWhile (· != '/'))) ((s.dropWhile (· != '/')).tail)⟩ := by
  simp [parse_symbol, located, mapPanic, symbol, symbolFromStr_of_count s h]

/-- Witness for C7 at the namespaced text ns/name. -/
theorem parse_symbol_namespace_split_witness :
    parse_symbol [⟨(0, 7), Token.Symbol ['n', 's', '/', 'n', 'a', 'm', 'e']⟩] =
      PR.ok [] ⟨(0, 7),
        if (['n', 's', '/', 'n', 'a', 'm', 'e'] : List Char).count '/' = 0 then
          AST.Symbol none ['n', 's', '/', 'n', 'a', 'm', 'e']
        else
          AST.Symbol (some ((['n', 's', '/', 'n', 'a', 'm', 'e'] : List Char).takeWhile (· != '/')))
            (((['n', 's', '/', 'n', 'a', 'm', 'e'] : List Char).dropWhile (· != '/')).tail)⟩ :=
  parse_symbol_namespace_split ['n', 's', '/', 'n', 'a', 'm', 'e'] (0, 7) (by decide)

/-- The keyword payload built from the colon-stripped text by the same
slash split as for symbols. -/
def kwAstFn (u : List Char) : AST :=
  if u.count '/' = 0 then AST.Keyword none u
  else AST.Keyword (some (u.takeWhile (· != '/'))) ((u.dropWhile (· != '/')).tail)

/-- Stripping a single-colon keyword text drops exactly that colon. -/
theorem stripKw_single (u : List Char) (hu : u.head? ≠ some ':') :
    stripKw (':' :: u) = some u := by
  cases u with
  | nil => rfl
  | cons c u' =>
    have hc : ¬c = ':' := fun hcc => hu (by simp [hcc])
    simp [stripKw, List.take, hc]

/-- Stripping a double-colon keyword text drops both colons. -/
theorem stripKw_double (u : List Char) : stripKw (':' :: ':' :: u) = some u := by
  simp [stripKw, List.take]

/-- The keyword payload computed after a successful strip of a text whose
remainder holds at most one slash. -/
theorem keywordFromStr_of_strip (s u : List Char) (hs : stripKw s = some u)
    (h : u.count '/' ≤ 1) : keywordFromStr s = some (kwAstFn u) := by
  by_cases h0 : u.count '/' = 0
  · simp [keywordFromStr, hs, splitSlash_count_zero u h0, kwAstFn, h0]
  · have h1 : u.count '/' = 1 := by omega
    simp [keywordFromStr, hs, splitSlash_count_one u h1, kwAstFn, h0]

/-- C8: parse_keyword strips a leading double colon (two characters) or
otherwise a leading single colon (one character) before performing the same
namespace split as symbols: for any remainder text with at most one slash
and not starting with a further colon, the single- and double-colon
spellings yield the same keyword payload. -/
theorem parse_keyword_strip_then_split (u : List Char) (r : SrcRange)
    (h1 : u.count '/' ≤ 1) (h2 : u.head? ≠ some ':') :
    parse_keyword [⟨r, Token.Keyword (':' :: u)⟩] = PR.ok [] ⟨r, kwAstFn u⟩ ∧
    parse_keyword [⟨r, Token.Keyword (':' :: ':' :: u)⟩] = PR.ok [] ⟨r, kwAstFn u⟩ := by
  constructor
  · simp [parse_keyword, located, mapPanic, keyword,
      keywordFromStr_of_strip _ u (stripKw_single u h2) h1]
  · simp [parse_keyword, located, mapPanic, keyword,
      keywordFromStr_of_strip _ u (stripKw_double u) h1]

/-- Witness for C8 at the remainder text ns/k, covering the spellings
colon-ns/k and double-colon-ns/k. -/
theorem parse_keyword_strip_then_split_witness :
    parse_keyword [⟨(0, 5), Token.Keyword (':' :: ['n', 's', '/', 'k'])⟩] =
      PR.ok [] ⟨(0, 5), kwAstFn ['n', 's', '/', 'k']⟩ ∧
    parse_keyword [⟨(0, 5), Token.Keyword (':' :: ':' :: ['n', 's', '/', 'k'])⟩] =
      PR.ok [] ⟨(0, 5), kwAstFn ['n', 's', '/', 'k']⟩ :=
  parse_keyword_strip_then_split ['n', 's', '/', 'k'] (0, 5) (by decide) (by decide)

/-- C5: parse_map parses zero or more forms between braces and then checks
the count: whenever the delimited body parse succeeds with the form list
kvs, an odd count fails with the structural Other error naming the
violation (not a classifier error), and an even count succeeds with a Map
whose payload is exactly kvs, so its length equals the count.  Stated for
any body parser, in particular the parse_form used by the source. -/
theorem parse_map_even_arity_check (pf : Parser (Located AST)) (ts r : List LTok)
    (kvs : List (Located AST))
    (h : delimited l_brace (many0 pf) r_brace ts = PR.ok r kvs) :
    (kvs.length % 2 = 1 →
      parse_mapP pf ts =
        PR.fail { errors := [TokenParseErrorKind.Other "map must have even number of forms"],
                  tokens_consumed := kvs.length }) ∧
    (kvs.length % 2 = 0 → ∃ rg, parse_mapP pf ts = PR.ok r ⟨rg, AST.Map kvs⟩) := by
  cases ts with
  | nil => simp [delimited, l_brace, tokenTag] at h
  | cons t0 ts' =>
    constructor
    · intro hodd
      simp [parse_mapP, located, map_res, h, mapResFn, hodd]
    · intro heven
      cases hr : r.head? with
      | some t =>
        refine ⟨(t0.range.1, t.range.2), ?_⟩
        simp [parse_mapP, located, map_res, h, mapResFn, heven, hr]
      | none =>
        refine ⟨(t0.range.1, (ts'.getLastD t0).range.2), ?_⟩
        simp [parse_mapP, located, map_res, h, mapResFn, heven, hr]

/-- Token slice of the empty map literal. -/
def exEmptyMapToks : List LTok := [⟨(0, 1), Token.LBrace⟩, ⟨(2, 3), Token.RBrace⟩]

/-- Witness for C5 at the empty map literal, whose zero body forms pass the
even-arity check. -/
theorem parse_map_even_arity_check_witness :
    (([] : List (Located AST)).length % 2 = 1 →
      parse_mapP parse_form exEmptyMapToks =
        PR.fail { errors := [TokenParseErrorKind.Other "map must have even number of forms"],
                  tokens_consumed := ([] : List (Located AST)).length }) ∧
    (([] : List (Located AST)).length % 2 = 0 →
      ∃ rg, parse_mapP parse_form exEmptyMapToks = PR.ok [] ⟨rg, AST.Map []⟩) :=
  parse_map_even_arity_check parse_form exEmptyMapToks [] [] (by rfl)

/-- A successful discard loop is matched by the spec-side discard counter:
same remaining slice, together with how many forms were dropped. -/
theorem discardLoop_ok (n : Nat) : ∀ (rest rest2 : List LTok),
    discardLoop n rest = PR.ok rest2 () →
    ∃ d, discardSpec n rest = some (rest2, d) := by
  induction n with
  | zero =>
    intro rest rest2 h
    simp [discardLoop] at h
    exact ⟨0, by simp [discardSpec, h]⟩
  | succ n ih =>
    intro rest rest2 h
    by_cases he : rest.isEmpty
    · simp only [discardLoop, if_pos he] at h
      obtain ⟨d, hd⟩ := ih rest rest2 h
      exact ⟨d, by simp [discardSpec, he, hd]⟩
    · cases hp : parse_form rest with
      | ok rest' form =>
        simp only [discardLoop, if_neg he, hp] at h
        obtain ⟨d, hd⟩ := ih rest' rest2 h
        exact ⟨d + 1, by simp [discardSpec, he, hp, hd]⟩
      | fail e => simp [discardLoop, he, hp] at h
      | panic => simp [discardLoop, he, hp] at h

/-- Whenever the parse_root loop returns Ok, the remaining slice is empty
and the accumulated forms extend by exactly the kept top-level forms, whose
number is the total form count minus the discarded count. -/
theorem parse_rootAux_ok (f : Nat) : ∀ (rest : List LTok) (forms : List (Located AST))
    (r : List LTok) (a : AST), parse_rootAux f rest forms = PR.ok r a →
    r = [] ∧ ∃ kept t d, rootSpecAux f rest = some (kept, t, d) ∧
      a = AST.Root (forms ++ kept) ∧ kept.length + d = t := by
  induction f with
  | zero => intro rest forms r a h; simp [parse_rootAux] at h
  | succ f ih =>
    intro rest forms r a h
    by_cases he : rest.isEmpty
    · have hre : rest = [] := by simpa using he
      subst hre
      simp [parse_rootAux] at h
      obtain ⟨hr, ha⟩ := h
      exact ⟨hr, [], 0, 0, by simp [rootSpecAux], by simp [ha], rfl⟩
    · cases h1 : many0_count sharp_underescore rest with
      | ok rest1 k =>
        cases h2 : discardLoop k rest1 with
        | ok rest2 u =>
          cases u
          cases h3 : parse_form rest2 with
          | ok rest3 form =>
            simp only [parse_rootAux, if_neg he, h1, h2, h3] at h
            obtain ⟨hr, kept, t, d, hspec, ha, hcount⟩ := ih rest3 (forms ++ [form]) r a h
            obtain ⟨dd, hdd⟩ := discardLoop_ok k rest1 rest2 h2
            refine ⟨hr, form :: kept, t + dd + 1, d + dd, ?_, ?_, ?_⟩
            · simp [rootSpecAux, he, h1, hdd, h3, hspec]
            · rw [ha]; simp
            · simp only [List.length_cons]; omega
          | fail e => simp [parse_rootAux, he, h1, h2, h3] at h
          | panic => simp [parse_rootAux, he, h1, h2, h3] at h
        | fail e => simp [parse_rootAux, he, h1, h2] at h
        | panic => simp [parse_rootAux, he, h1, h2] at h
      | fail e => simp [parse_rootAux, he, h1] at h
      | panic => simp [parse_rootAux, he, h1] at h

/-- C4: whenever parse_root succeeds, the remaining token slice is empty
and it produces a Root whose children are exactly the kept top-level forms
in input order, so their number is the total number of top-level forms
minus those discarded by comment-out markers. -/
theorem parse_root_consumes_all_and_counts (tokens r : List LTok) (a : AST)
    (h : parse_root tokens = PR.ok r a) :
    r = [] ∧ ∃ kept t d, rootSpec tokens = some (kept, t, d) ∧
      a = AST.Root kept ∧ kept.length = t - d := by
  obtain ⟨hr, kept, t, d, hspec, ha, hc⟩ :=
    parse_rootAux_ok (tokens.length + 1) tokens [] r a h
  exact ⟨hr, kept, t, d, hspec, by simpa using ha, by omega⟩

/-- Token slice of the input comment-out-marker 1 2. -/
def exRootToks : List LTok :=
  [⟨(0, 2), Token.SharpUnderscore⟩, ⟨(3, 4), Token.IntegerLit 1⟩, ⟨(5, 6), Token.IntegerLit 2⟩]

/-- Witness for C4 on the input comment-out-marker 1 2: the 1 is discarded,
the Root keeps only the 2, and one of the two top-level forms remains. -/
theorem parse_root_consumes_all_and_counts_witness :
    ([] : List LTok) = [] ∧ ∃ kept t d, rootSpec exRootToks = some (kept, t, d) ∧
      AST.Root [⟨(5, 6), AST.IntegerLiteral 2⟩] = AST.Root kept ∧ kept.length = t - d :=
  parse_root_consumes_all_and_counts exRootToks []
    (AST.Root [⟨(5, 6), AST.IntegerLiteral 2⟩]) (by rfl)

/-- C10: parse_symbol accepts empty namespace and name components: a symbol
text ending in a slash yields a namespace with an empty name, and the bare
slash symbol yields an empty namespace and an empty name rather than an
unqualified slash name. -/
theorem parse_symbol_empty_components :
    parse_symbol [⟨(0, 3), Token.Symbol ['n', 's', '/']⟩] =
      PR.ok [] ⟨(0, 3), AST.Symbol (some ['n', 's']) []⟩ ∧
    parse_symbol [⟨(0, 1), Token.Symbol ['/']⟩] =
      PR.ok [] ⟨(0, 1), AST.Symbol (some []) []⟩ :=
  ⟨rfl, rfl⟩

end Clj
